import Mathlib

/-!
# Verification of the MrLYDownloader orchestration core

Shallow embedding of `MrLYDownload.py` (license key generation/validation,
target resolution utilities, the worker batch loop, the cookie policy, the
external command construction, and the progress hook), together with proofs
deciding the specification claims.

Strings from the Python side are modelled as `List Char`; Python library
functions used by the source (`str.strip`, `str.split`, `datetime.strptime`,
`urllib.parse.urlparse`, `os.path.join`, IEEE-754 float division as used by
the `/` operator) are modelled explicitly below, faithful to their CPython
behaviour on the inputs the program feeds them.
-/

namespace MrLY

/-! ## Python string primitives -/

/-- Whitespace as recognised by Python `str.strip()` (ASCII subset; the
program only ever strips ASCII text). -/
def pyIsSpace (c : Char) : Bool :=
  c = ' ' || c = '\t' || c = '\n' || c = '\r' || c = Char.ofNat 11 || c = Char.ofNat 12

/-- Python `str.strip()`: remove leading and trailing whitespace. -/
def pyStrip (l : List Char) : List Char :=
  ((l.dropWhile pyIsSpace).reverse.dropWhile pyIsSpace).reverse

/-- Python `str.split(sep)` for a one-character separator: split on every
occurrence, keeping empty pieces (`"".split('-') == [""]`). -/
def pySplitChar (sep : Char) : List Char → List (List Char)
  | [] => [[]]
  | c :: rest =>
    if c = sep then [] :: pySplitChar sep rest
    else
      match pySplitChar sep rest with
      | [] => [[c]]
      | g :: gs => (c :: g) :: gs

/-- Python `str.split(sep, 1)[1]` when the separator is known to occur:
everything after the first occurrence. -/
def pyAfterFirst (sep : Char) (l : List Char) : List Char :=
  (l.dropWhile (fun c => c ≠ sep)).tail

/-- Python `str.lower()` (ASCII). -/
def pyLower (l : List Char) : List Char := l.map Char.toLower

/-- Python `str.upper()` (ASCII). -/
def pyUpper (l : List Char) : List Char := l.map Char.toUpper

/-- Python `str.startswith(p)`. -/
def pyStartsWith (p l : List Char) : Bool := List.isPrefixOf p l

/-- Python substring test `needle in hay`. -/
def pyContains (needle : List Char) : List Char → Bool
  | [] => List.isPrefixOf needle []
  | c :: rest => List.isPrefixOf needle (c :: rest) || pyContains needle rest

/-- Python `str.rstrip(ch)` for a single character. -/
def pyRstripChar (ch : Char) (l : List Char) : List Char :=
  (l.reverse.dropWhile (fun c => c = ch)).reverse

/-- Python `str.lstrip(ch)` for a single character. -/
def pyLstripChar (ch : Char) (l : List Char) : List Char :=
  l.dropWhile (fun c => c = ch)

/-- Digit value of a character (valid on `'0'`-`'9'`). -/
def digVal (c : Char) : Nat := c.toNat - 48

/-- The decimal digit character for `n ≤ 9`. -/
def digitChar (n : Nat) : Char := Char.ofNat (48 + n)

/-! ## Dates and the license key (`generate_license` / `validate_license`) -/

/-- Gregorian leap year, as `datetime` uses. -/
def isLeap (y : Nat) : Bool :=
  y % 4 = 0 && (y % 100 ≠ 0 || y % 400 = 0)

/-- Days in a month, as `datetime` uses. -/
def daysInMonth (y m : Nat) : Nat :=
  if m = 2 then (if isLeap y then 29 else 28)
  else if m = 4 || m = 6 || m = 9 || m = 11 then 30
  else 31

/-- A calendar date that `datetime.date` can represent. -/
def validDate (y m d : Nat) : Prop :=
  1 ≤ y ∧ y ≤ 9999 ∧ 1 ≤ m ∧ m ≤ 12 ∧ 1 ≤ d ∧ d ≤ daysInMonth y m

instance (y m d : Nat) : Decidable (validDate y m d) := by
  unfold validDate; infer_instance

/-- A `datetime.datetime` value: the calendar date plus the time of day
(microseconds since midnight; only `= 0` vs `> 0` matters here). -/
structure PyDateTime where
  year : Nat
  month : Nat
  day : Nat
  tod : Nat
deriving DecidableEq, Repr

/-- `now` is a representable instant. -/
def validDT (now : PyDateTime) : Prop := validDate now.year now.month now.day

instance (now : PyDateTime) : Decidable (validDT now) := by
  unfold validDT; infer_instance

/-- Order-embedding of a calendar date into `Nat` (lexicographic on
year/month/day because months and days are below 100). -/
def dateNum (y m d : Nat) : Nat := y * 10000 + m * 100 + d

/-- The comparison `datetime.now() > datetime(y, m, d)` performed by
`validate_license`: the right-hand side is the date at midnight. -/
def dtGtMidnight (now : PyDateTime) (y m d : Nat) : Bool :=
  decide (dateNum now.year now.month now.day > dateNum y m d) ||
    (decide (dateNum now.year now.month now.day = dateNum y m d) && decide (now.tod > 0))

/-- Day-match step of the `_strptime` regex `(3[01]|[12]\d|0[1-9]|[1-9])`:
alternatives tried in order, two-character forms first; returns the day and
the unconsumed suffix. -/
def dayMatch : List Char → Option (Nat × List Char)
  | [] => none
  | [c0] => if '1' ≤ c0 && c0 ≤ '9' then some (digVal c0, []) else none
  | c0 :: c1 :: rest =>
    if c0 = '3' && (c1 = '0' || c1 = '1') then some (30 + digVal c1, rest)
    else if (c0 = '1' || c0 = '2') && c1.isDigit then some (digVal c0 * 10 + digVal c1, rest)
    else if c0 = '0' && ('1' ≤ c1 && c1 ≤ '9') then some (digVal c1, rest)
    else if '1' ≤ c0 && c0 ≤ '9' then some (digVal c0, c1 :: rest)
    else none

/-- Month-then-day match of the `_strptime` regex
`(1[0-2]|0[1-9]|[1-9])(3[01]|[12]\d|0[1-9]|[1-9])`, with the ordered-alternative backtracking of the regex engine: a two-character month is preferred, and the
one-character month is retried only if no day can follow the two-character
one. -/
def monthDayMatch : List Char → Option (Nat × Nat × List Char)
  | [] => none
  | [_] => none
  | c0 :: c1 :: rest =>
    let two : Option Nat :=
      if c0 = '1' && (c1 = '0' || c1 = '1' || c1 = '2') then some (10 + digVal c1)
      else if c0 = '0' && ('1' ≤ c1 && c1 ≤ '9') then some (digVal c1)
      else none
    match two with
    | some m =>
      match dayMatch rest with
      | some (d, rem) => some (m, d, rem)
      | none =>
        if '1' ≤ c0 && c0 ≤ '9' then
          match dayMatch (c1 :: rest) with
          | some (d, rem) => some (digVal c0, d, rem)
          | none => none
        else none
    | none =>
      if '1' ≤ c0 && c0 ≤ '9' then
        match dayMatch (c1 :: rest) with
        | some (d, rem) => some (digVal c0, d, rem)
        | none => none
      else none

/-- `datetime.strptime(s, "%Y%m%d")`: four digits of year (regex `\d\d\d\d`),
then month and day per `monthDayMatch`; the whole string must be consumed and
the result must be a representable calendar date, otherwise `ValueError`
(modelled as `none`). -/
def pyStrptimeYmd (l : List Char) : Option (Nat × Nat × Nat) :=
  match l with
  | c1 :: c2 :: c3 :: c4 :: rest =>
    if c1.isDigit && c2.isDigit && c3.isDigit && c4.isDigit then
      let y := ((digVal c1 * 10 + digVal c2) * 10 + digVal c3) * 10 + digVal c4
      match monthDayMatch rest with
      | some (m, d, []) =>
        if 1 ≤ y ∧ d ≤ daysInMonth y m then some (y, m, d) else none
      | _ => none
    else none
  | _ => none

/-- `validate_license` (`MrLYDownload.py` lines 40-47): strip the key, split
on `'-'`, require exactly four parts, parse the fourth with
`strptime("%Y%m%d")`, and reject when `datetime.now()` is after the parsed
midnight; every failure inside the `try` yields `False`. -/
def validate_license (now : PyDateTime) (key : List Char) : Bool :=
  let parts := pySplitChar '-' (pyStrip key)
  if parts.length = 4 then
    match pyStrptimeYmd (parts.getD 3 []) with
    | some (y, m, d) => !dtGtMidnight now y m d
    | none => false
  else false

/-- `strftime("%Y%m%d")` for a representable date: zero-padded 4-digit year,
2-digit month, 2-digit day. -/
def renderYmd (y m d : Nat) : List Char :=
  [digitChar (y / 1000 % 10), digitChar (y / 100 % 10),
   digitChar (y / 10 % 10), digitChar (y % 10),
   digitChar (m / 10 % 10), digitChar (m % 10),
   digitChar (d / 10 % 10), digitChar (d % 10)]

/-- Successor day in the Gregorian calendar (one step of `timedelta(days=1)`
on the date part). -/
def nextDay : Nat × Nat × Nat → Nat × Nat × Nat
  | (y, m, d) =>
    if d < daysInMonth y m then (y, m, d + 1)
    else if m < 12 then (y, m + 1, 1)
    else (y + 1, 1, 1)

/-- `date + timedelta(days = n)`. -/
def addDays : Nat → Nat × Nat × Nat → Nat × Nat × Nat
  | 0, x => x
  | n + 1, x => nextDay (addDays n x)

/-- The alphabet `string.ascii_uppercase + string.digits` that
`generate_license` draws its three groups from. -/
def licChar (c : Char) : Prop :=
  (65 ≤ c.toNat ∧ c.toNat ≤ 90) ∨ (48 ≤ c.toNat ∧ c.toNat ≤ 57)

instance (c : Char) : Decidable (licChar c) := by
  unfold licChar; infer_instance

/-- One random group drawn by `generate_license`: four characters from the
uppercase-plus-digits alphabet. -/
def licGroup (p : List Char) : Prop := p.length = 4 ∧ ∀ c ∈ p, licChar c

instance (p : List Char) : Decidable (licGroup p) := by
  unfold licGroup; infer_instance

/-- `generate_license` (`MrLYDownload.py` lines 33-38): join the three random
groups and `strftime("%Y%m%d")` of `datetime.now() + timedelta(days=exp_days)`
with `'-'`. The three random draws are passed in as parameters. -/
def generate_license (now : PyDateTime) (expDays : Nat)
    (p1 p2 p3 : List Char) : List Char :=
  let e := addDays expDays (now.year, now.month, now.day)
  List.intercalate ['-'] [p1, p2, p3, renderYmd e.1 e.2.1 e.2.2]

/-! ## IEEE-754 double precision, as used by the `/` operator and `int()` in Python

The worker computes its percentages with Python float arithmetic
(`int(((ok + fail) / max(1, total)) * 100)` and
`int(downloaded * 100 / max(1, total))`).  A binary64 value is represented
exactly as `m · 2^e` with `2^52 ≤ m < 2^53` (or `m = 0`); division and
multiplication round to nearest, ties to even. Overflow and subnormals are
outside the magnitudes this program produces and are not modelled. -/

/-- Fuel-driven binary logarithm (⌊log₂ n⌋ for `n ≥ 1`), structurally
recursive so that kernel evaluation can unfold it. -/
def log2Fuel : Nat → Nat → Nat
  | 0, _ => 0
  | fuel + 1, n => if 2 ≤ n then log2Fuel fuel (n / 2) + 1 else 0

/-- ⌊log₂ n⌋ (0 at 0). -/
def natLog2 (n : Nat) : Nat := log2Fuel n n

/-- A non-negative binary64 value `m · 2^e`. -/
structure PyFloat where
  m : Nat
  e : Int
deriving DecidableEq, Repr

/-- Round the exact ratio `num / den` to the nearest integer, ties to even. -/
def roundMantissa (num den : Nat) : Nat :=
  let q := num / den
  let r := num % den
  if 2 * r > den then q + 1
  else if 2 * r < den then q
  else if q % 2 = 1 then q + 1 else q

/-- `b · 2^e ≤ a`, with the power moved to whichever side keeps it natural. -/
def le2 (b a : Nat) (e : Int) : Bool :=
  if 0 ≤ e then b * 2 ^ e.toNat ≤ a else b ≤ a * 2 ^ (-e).toNat

/-- The binade exponent of `a / b`: the unique `E` with
`b · 2^E ≤ a < b · 2^(E+1)` (for `a, b > 0`), located near
`log2 a - log2 b`. -/
def findExp (a b : Nat) : Int :=
  let d : Int := (natLog2 a : Int) - (natLog2 b : Int)
  if le2 b a (d + 1) then d + 1 else if le2 b a d then d else d - 1

/-- IEEE-754 binary64 division `a / b` of two naturals (`b ≠ 0`). -/
def floatDivNat (a b : Nat) : PyFloat :=
  if a = 0 then ⟨0, 0⟩
  else
    let E := findExp a b
    let num : Nat := if 0 ≤ 52 - E then a * 2 ^ (52 - E).toNat else a
    let den : Nat := if 0 ≤ 52 - E then b else b * 2 ^ (E - 52).toNat
    let m := roundMantissa num den
    if m = 2 ^ 53 then ⟨2 ^ 52, E - 51⟩ else ⟨m, E - 52⟩

/-- IEEE-754 binary64 multiplication of a float by the integer 100 (exactly
representable), rounding the product to 53 bits. -/
def floatMul100 (x : PyFloat) : PyFloat :=
  if x.m = 0 then ⟨0, 0⟩
  else
    let M := x.m * 100
    let s := natLog2 M - 52
    let m := roundMantissa M (2 ^ s)
    if m = 2 ^ 53 then ⟨2 ^ 52, x.e + s + 1⟩ else ⟨m, x.e + s⟩

/-- Python `int()` on a non-negative float: truncate toward zero. -/
def truncFloat (x : PyFloat) : Nat :=
  if 0 ≤ x.e then x.m * 2 ^ x.e.toNat else x.m / 2 ^ (-x.e).toNat

/-- The batch-level percentage emitted by `Worker.run` (line 191):
`int(((ok + fail) / max(1, total)) * 100)` in Python float arithmetic. -/
def pyPct (done total : Nat) : Nat :=
  truncFloat (floatMul100 (floatDivNat done (max 1 total)))

/-- The per-item percentage computed by `Worker._hook` (line 199):
`int(downloaded * 100 / max(1, total))` — integer multiplication first, then
float division. -/
def hookPct (downloaded total : Nat) : Nat :=
  truncFloat (floatDivNat (downloaded * 100) (max 1 total))

/-- The percentage named by the formula in the specification:
`round(100 * (succeeded + failed) / total)` with `total` floored at 1, as
exact arithmetic with the `round` of Python (nearest, ties to even). Follows
the words of the spec, for comparison with `pyPct`. -/
def specRoundPct (done total : Nat) : Nat :=
  roundMantissa (100 * done) (max 1 total)

/-- The key shape named by the specification (three 4-character alphanumeric
groups plus an 8-digit date, joined by `'-'`). Follows the words of the spec, for
comparison with what `validate_license` actually checks. -/
def specLicenseShape (key : List Char) : Bool :=
  match pySplitChar '-' key with
  | [g1, g2, g3, d8] =>
    decide (g1.length = 4) && g1.all (fun c => c.isAlpha || c.isDigit) &&
    decide (g2.length = 4) && g2.all (fun c => c.isAlpha || c.isDigit) &&
    decide (g3.length = 4) && g3.all (fun c => c.isAlpha || c.isDigit) &&
    decide (d8.length = 8) && d8.all Char.isDigit
  | _ => false

/-! ## `urllib.parse.urlparse` -/

/-- Characters allowed in a URL scheme after the first (CPython
`scheme_chars`). -/
def schemeChar (c : Char) : Bool :=
  c.isAlpha || c.isDigit || c = '+' || c = '-' || c = '.'

/-- Result of `urllib.parse.urlparse`. -/
structure ParseResult where
  scheme : List Char
  netloc : List Char
  path : List Char
  params : List Char
  query : List Char
  fragment : List Char
deriving DecidableEq, Repr

/-- Schemes for which `urlparse` splits `;`-params off the path (CPython
`uses_params`). -/
def usesParams : List (List Char) :=
  ["".toList, "ftp".toList, "hdl".toList, "prospero".toList, "http".toList,
   "imap".toList, "https".toList, "shttp".toList, "rtsp".toList,
   "rtspu".toList, "sip".toList, "sips".toList, "mms".toList, "sftp".toList,
   "tel".toList]

/-- `urllib.parse.urlsplit`: strip unsafe bytes, detect a scheme before the
first `':'`, take the netloc after `"//"` up to the first of `/?#`, then
split fragment and query off the remainder. -/
def pyUrlsplit (url0 : List Char) : ParseResult :=
  let url1 := url0.filter (fun c => c ≠ '\t' && c ≠ '\r' && c ≠ '\n')
  let pre := url1.takeWhile (fun c => c ≠ ':')
  let hasScheme : Bool :=
    decide (pre.length < url1.length) && !pre.isEmpty &&
      (pre.headD ' ').isAlpha && pre.tail.all schemeChar
  let scheme := if hasScheme then pyLower pre else []
  let rest := if hasScheme then pyAfterFirst ':' url1 else url1
  let hasNetloc := pyStartsWith "//".toList rest
  let netloc :=
    if hasNetloc then
      (rest.drop 2).takeWhile (fun c => c ≠ '/' && c ≠ '?' && c ≠ '#')
    else []
  let rest2 := if hasNetloc then (rest.drop 2).dropWhile (fun c => c ≠ '/' && c ≠ '?' && c ≠ '#') else rest
  let fragment := if pyContains ['#'] rest2 then pyAfterFirst '#' rest2 else []
  let rest3 := if pyContains ['#'] rest2 then rest2.takeWhile (fun c => c ≠ '#') else rest2
  let query := if pyContains ['?'] rest3 then pyAfterFirst '?' rest3 else []
  let path := if pyContains ['?'] rest3 then rest3.takeWhile (fun c => c ≠ '?') else rest3
  ⟨scheme, netloc, path, [], query, fragment⟩

/-- `urllib.parse._splitparams`: cut the path at the first `';'` of its last
`/`-segment (or of the whole path when it has no `'/'`). -/
def splitPathParams (path : List Char) : List Char × List Char :=
  if pyContains ['/'] path then
    let lastSeg := (path.reverse.takeWhile (fun c => c ≠ '/')).reverse
    let stem := path.take (path.length - lastSeg.length)
    if pyContains [';'] lastSeg then
      (stem ++ lastSeg.takeWhile (fun c => c ≠ ';'), pyAfterFirst ';' lastSeg)
    else (path, [])
  else (path.takeWhile (fun c => c ≠ ';'), pyAfterFirst ';' path)

/-- `urllib.parse.urlparse`: `urlsplit` plus params splitting for the
schemes in `usesParams`. -/
def pyUrlparse (url : List Char) : ParseResult :=
  let r := pyUrlsplit url
  if r.scheme ∈ usesParams && pyContains [';'] r.path then
    let (p, ps) := splitPathParams r.path
    { r with path := p, params := ps }
  else r

/-! ## Target-resolution utilities (`slugify`, `detect_platform`,
`build_url_from_username`, `derive_folder_name`) -/

/-- The character class `[A-Za-z0-9._-]` of `slugify`'s regex. -/
def allowedChar (c : Char) : Bool :=
  c.isAlpha || c.isDigit || c = '.' || c = '_' || c = '-'

/-- `re.sub(r"[^A-Za-z0-9._-]+", "_", s)`: each maximal run of disallowed
characters becomes a single `'_'`; the flag records whether the previous
character was part of such a run. -/
def subRun : List Char → Bool → List Char
  | [], _ => []
  | c :: rest, inRun =>
    if allowedChar c then c :: subRun rest false
    else if inRun then subRun rest true
    else '_' :: subRun rest true

/-- `slugify` (`MrLYDownload.py` lines 50-52). -/
def slugify (s : List Char) : List Char :=
  let t := subRun (pyStrip s) false
  let u := pyLstripChar '_' (pyRstripChar '_' t)
  if u = [] then "download".toList else u

/-- `detect_platform` (`MrLYDownload.py` lines 54-62). -/
def detect_platform (t : List Char) : List Char :=
  let text := pyLower (pyStrip t)
  if pyStartsWith "http".toList text then
    let host := pyLower (pyUrlparse text).netloc
    if pyContains "youtu".toList host then "YouTube".toList
    else if pyContains "tiktok.com".toList host then "TikTok".toList
    else if pyContains "instagram.com".toList host then "Instagram".toList
    else if pyContains "facebook.com".toList host || pyContains "fb.watch".toList host then
      "Facebook".toList
    else "Auto Detect".toList
  else "Auto Detect".toList

/-- `build_url_from_username` (`MrLYDownload.py` lines 64-71). -/
def build_url_from_username (platform username : List Char) : Option (List Char) :=
  let u := pyLstripChar '@' (pyStrip username)
  if u = [] then none
  else if platform = "YouTube".toList then some ("https://www.youtube.com/@".toList ++ u)
  else if platform = "TikTok".toList then some ("https://www.tiktok.com/@".toList ++ u)
  else if platform = "Instagram".toList then
    some ("https://www.instagram.com/".toList ++ u ++ "/".toList)
  else if platform = "Facebook".toList then some ("https://www.facebook.com/".toList ++ u)
  else none

/-- `derive_folder_name` (`MrLYDownload.py` lines 73-80). The `platform`
argument is accepted and ignored, as in the source. -/
def derive_folder_name (platform url : List Char) : List Char :=
  let p := pyUrlparse url
  let stripped := pyRstripChar '/' p.path
  let base := if stripped = [] then ['/'] else stripped
  let last := slugify ((pySplitChar '/' base).getLastD [])
  let host := (pySplitChar ':' p.netloc).headD []
  let last2 := if last = [] then slugify p.netloc else last
  slugify (host ++ '_' :: last2)

/-- `os.path.join` for two components (POSIX). -/
def pyPathJoin (a b : List Char) : List Char :=
  if pyStartsWith ['/'] b then b
  else if a = [] || a.getLastD ' ' = '/' then a ++ b
  else a ++ '/' :: b

/-! ## The worker (`Worker.run`, `Worker._hook`) -/

/-- One batch item as built in `MrLYDownloader._start` (lines 412-414). -/
structure DownloadItem where
  platform : List Char
  input_type : List Char
  raw_text : List Char
  resolved_url : Option (List Char)
  out_dir : Option (List Char)
deriving DecidableEq, Repr

/-- `DownloadItem(platform=..., input_type=..., raw_text=line)`: the two
optional fields default to `None`. -/
def mkItem (platform inputType line : List Char) : DownloadItem :=
  ⟨platform, inputType, line, none, none⟩

/-- Line 131, `url = item.resolved_url or item.raw_text.strip()`: Python `or`
falls through on `None` and on the empty string. -/
def workerUrl (item : DownloadItem) : List Char :=
  match item.resolved_url with
  | some s => if s ≠ [] then s else pyStrip item.raw_text
  | none => pyStrip item.raw_text

/-- Line 132: keep an explicitly selected platform, otherwise auto-detect
from the URL. -/
def workerPlatform (item : DownloadItem) (url : List Char) : List Char :=
  if item.platform ≠ "Auto Detect".toList then item.platform else detect_platform url

/-- Lines 139-143: format selector and merge container per platform. -/
def workerFmt (platform : List Char) : List Char × Option (List Char) :=
  if platform = "TikTok".toList || platform = "Instagram".toList ||
      platform = "Facebook".toList then
    ("best[ext=mp4][height<=1080]".toList, none)
  else ("bestvideo[height<=1080]+bestaudio/best".toList, some "mp4".toList)

/-- Line 134, `os.path.join(base_dir, platform or "Auto", folder_name)`. -/
def workerOutdir (baseDir platform folderName : List Char) : List Char :=
  pyPathJoin (pyPathJoin baseDir (if platform = [] then "Auto".toList else platform)) folderName

/-- The output template `"%(title).80s [%(id)s].%(ext)s"`. -/
def outtmplPattern : List Char := "%(title).80s [%(id)s].%(ext)s".toList

/-- The cookie handling of lines 157-165: returns the `cookiefile` entry, the
`http_headers` entries and the log lines emitted. A missing cookie file is
skipped silently. `fsExists` models `os.path.exists`. -/
def ydlCookie (fsExists : List Char → Bool) (cookieText : List Char) :
    Option (List Char) × List (List Char × List Char) × List (List Char) :=
  if cookieText ≠ [] then
    if pyStartsWith "COOKIEFILE:".toList (pyUpper cookieText) then
      let cookiePath := pyStrip (pyAfterFirst ':' cookieText)
      if fsExists cookiePath then
        (some cookiePath, [], ["🍪 Using cookie file: ".toList ++ cookiePath])
      else (none, [], [])
    else (none, [("Cookie".toList, cookieText)], [])
  else (none, [], [])

/-- The `ydl_opts` dictionary of lines 145-165 (the fields with algorithmic
content; the logger and progress-hook entries are function values). -/
structure YdlOpts where
  concurrent_fragment_downloads : Nat
  retries : Nat
  ignoreerrors : List Char
  noprogress : Bool
  format : List Char
  merge_output_format : Option (List Char)
  outtmpl : List Char
  cookiefile : Option (List Char)
  http_headers : List (List Char × List Char)
deriving DecidableEq, Repr

/-- Construction of `ydl_opts` for one item. -/
def mkYdlOpts (fsExists : List Char → Bool) (platform outdir cookieText : List Char) :
    YdlOpts :=
  let fm := workerFmt platform
  let ck := ydlCookie fsExists cookieText
  { concurrent_fragment_downloads := 4
    retries := 5
    ignoreerrors := "only_download".toList
    noprogress := true
    format := fm.1
    merge_output_format := fm.2
    outtmpl := pyPathJoin outdir outtmplPattern
    cookiefile := ck.1
    http_headers := ck.2.1 }

/-- Lines 169-170: the command line appends `--cookies <path>` whenever the
cookie text has the `COOKIEFILE:` prefix, with no existence check. -/
def cookieCmdArgs (cookieText : List Char) : List (List Char) :=
  if pyStartsWith "COOKIEFILE:".toList (pyUpper cookieText) then
    ["--cookies".toList, pyStrip (pyAfterFirst ':' cookieText)]
  else []

/-- Lines 167-170: the argument vector handed to `subprocess.Popen` for one
item (`sys.executable` is passed in as `pyExe`). This is the entire
configuration the child process receives. -/
def mkCmd (pyExe url outdir fmt : List Char) (mergeFmt : Option (List Char))
    (cookieText : List Char) : List (List Char) :=
  [pyExe, "-m".toList, "yt_dlp".toList, url, "-o".toList,
   pyPathJoin outdir outtmplPattern, "-f".toList, fmt] ++
  (match mergeFmt with
   | some mf => ["--merge-output-format".toList, mf]
   | none => []) ++
  cookieCmdArgs cookieText

/-- One `Counts`/`PercentComplete` emission of lines 190-192: the counts
after an item finished and the batch percentage computed from them. -/
structure TraceEntry where
  ok : Nat
  fl : Nat
  pct : Nat
deriving DecidableEq, Repr

/-- Outcome of `Worker.run`'s loop: final counters, whether the stop flag was
observed at the top of the loop, and the emitted per-item events in order. -/
structure RunOut where
  ok : Nat
  fl : Nat
  cancelled : Bool
  trace : List TraceEntry
deriving DecidableEq, Repr

/-- The per-item loop of `Worker.run` (lines 127-192). `outcomes` abstracts
the processing of each item: `true` when the child exits with code 0, `false` for
any failure (nonzero exit, kill after cancellation mid-item, or an exception
caught by the `except` arm — each increments `fail` by the same code path).
`stop idx` is the value of `stop_flag.is_set()` when the loop top checks it
for item number `idx`; a set flag breaks out before starting that item. -/
def workerLoop (total : Nat) (stop : Nat → Bool) :
    List Bool → Nat → Nat → Nat → RunOut
  | [], _, ok, fl => ⟨ok, fl, false, []⟩
  | o :: rest, idx, ok, fl =>
    if stop idx then ⟨ok, fl, true, []⟩
    else
      let ok' := if o then ok + 1 else ok
      let fl' := if o then fl else fl + 1
      let r := workerLoop total stop rest (idx + 1) ok' fl'
      ⟨r.ok, r.fl, r.cancelled, ⟨ok', fl', pyPct (ok' + fl') total⟩ :: r.trace⟩

/-- `Worker.run` for a batch: counters start at zero, `enumerate(..., 1)`
starts the index at 1, `total = len(items)`. The terminal `done` signal is
emitted exactly once after the loop, whatever the `RunOut`. -/
def workerRun (outcomes : List Bool) (stop : Nat → Bool) : RunOut :=
  workerLoop outcomes.length stop outcomes 1 0 0

/-- What a call to `Worker._hook` does: emit a status line, emit nothing, or
raise `UnboundLocalError` because `pct` was referenced without having been
assigned. -/
inductive HookResult where
  | emits (line : List Char)
  | noEvent
  | nameError
deriving DecidableEq, Repr

/-- The dictionary yt-dlp passes to a progress hook (the keys `_hook`
reads). -/
structure HookDict where
  status : Option (List Char)
  total_bytes : Option Nat
  total_bytes_estimate : Option Nat
  downloaded_bytes : Option Nat
  filename : Option (List Char)
deriving DecidableEq, Repr

/-- Python `a or b` on optional numbers: `a` unless it is `None` or `0`. -/
def pyOrNat (a b : Option Nat) : Option Nat :=
  match a with
  | some n => if n ≠ 0 then some n else b
  | none => b

/-- `Worker._hook` (lines 195-202). In the `downloading` branch the local
`pct` is assigned only under `if total:`, but the f-string emitted right
after reads `pct` unconditionally; when `total` is falsy this raises
`UnboundLocalError` (modelled as `nameError`). -/
def workerHook (d : HookDict) : HookResult :=
  if d.status = some "downloading".toList then
    let total := pyOrNat d.total_bytes d.total_bytes_estimate
    let downloaded := d.downloaded_bytes.getD 0
    match total with
    | some t =>
      if t ≠ 0 then
        .emits ("⬇️ ".toList ++ (Nat.repr (hookPct downloaded t)).toList ++
          "%  ".toList ++ d.filename.getD [])
      else .nameError
    | none => .nameError
  else if d.status = some "finished".toList then
    .emits ("💾 Post-processing: ".toList ++ d.filename.getD [])
  else .noEvent

/-! ## Claim C1, C6, C8: direct evaluations of the code -/

/-- C1: the claim says a Username-kind target is fetched through the
canonical profile URL of the platform with the leading `@` trimmed, failing when
the trimmed username is empty. The code defines exactly that resolver
(`build_url_from_username`) but never calls it: `Worker.run` line 131 reads
`item.resolved_url` — which `_start` always leaves as `None` — and falls back
to the raw text, so the fetch URL for platform YouTube, input-kind Username
and raw text `"bar"` is `"bar"`, not `https://www.youtube.com/@bar`. -/
theorem c1_username_resolver_unused :
    workerUrl (mkItem "YouTube".toList "Username".toList "bar".toList) = "bar".toList ∧
    (mkItem "YouTube".toList "Username".toList "bar".toList).resolved_url = none ∧
    build_url_from_username "YouTube".toList "bar".toList =
      some "https://www.youtube.com/@bar".toList ∧
    build_url_from_username "YouTube".toList "@".toList = none ∧
    "bar".toList ≠ "https://www.youtube.com/@bar".toList := by
  refine ⟨rfl, rfl, by decide, by decide, by decide⟩

/-- C6: the claim says every fetch child process is launched with retry
count 5, fragment concurrency 4 and ignore-errors semantics. Those settings
exist only in the `ydl_opts` dictionary, which `Worker.run` builds and never
uses; the actual `subprocess.Popen` argument vector contains none of them. -/
theorem c6_child_lacks_retry_options :
    (mkYdlOpts (fun _ => false) "YouTube".toList "/out".toList []).retries = 5 ∧
    (mkYdlOpts (fun _ => false) "YouTube".toList "/out".toList
      []).concurrent_fragment_downloads = 4 ∧
    (mkYdlOpts (fun _ => false) "YouTube".toList "/out".toList []).ignoreerrors =
      "only_download".toList ∧
    mkCmd "python3".toList "https://example.com/v".toList "/out".toList
        "bestvideo[height<=1080]+bestaudio/best".toList (some "mp4".toList) [] =
      ["python3".toList, "-m".toList, "yt_dlp".toList, "https://example.com/v".toList,
       "-o".toList, "/out/%(title).80s [%(id)s].%(ext)s".toList, "-f".toList,
       "bestvideo[height<=1080]+bestaudio/best".toList,
       "--merge-output-format".toList, "mp4".toList] ∧
    "--retries".toList ∉ mkCmd "python3".toList "https://example.com/v".toList
      "/out".toList "bestvideo[height<=1080]+bestaudio/best".toList
      (some "mp4".toList) [] ∧
    "--concurrent-fragments".toList ∉ mkCmd "python3".toList
      "https://example.com/v".toList "/out".toList
      "bestvideo[height<=1080]+bestaudio/best".toList (some "mp4".toList) [] ∧
    "--ignore-errors".toList ∉ mkCmd "python3".toList "https://example.com/v".toList
      "/out".toList "bestvideo[height<=1080]+bestaudio/best".toList
      (some "mp4".toList) [] := by
  refine ⟨rfl, rfl, rfl, by decide, by decide, by decide, by decide⟩

/-- C8: the claim says a `downloading` callback with no `total_bytes` and no
`total_bytes_estimate` is tolerated by omitting the percent and emitting only
a status line. In the code `pct` is assigned only under `if total:`, yet the
emission reads `pct` unconditionally, so an unknown total raises
`UnboundLocalError` instead (also when the reported total is 0); a known
total produces the percent line. -/
theorem c8_hook_unknown_total_raises :
    workerHook ⟨some "downloading".toList, none, none, none, none⟩ =
      HookResult.nameError ∧
    workerHook ⟨some "downloading".toList, none, some 0, some 5, some "f".toList⟩ =
      HookResult.nameError ∧
    workerHook ⟨some "downloading".toList, some 70, none, some 50,
      some "f.mp4".toList⟩ = HookResult.emits "⬇️ 71%  f.mp4".toList ∧
    workerHook ⟨some "finished".toList, none, none, none, some "f.mp4".toList⟩ =
      HookResult.emits "💾 Post-processing: f.mp4".toList := by
  refine ⟨rfl, rfl, by decide, by decide⟩

/-! ## Claim C2: license shape (counterexample) -/

/-- C2 counterexample: the validator never examines the three leading groups,
so a key far from the `XXXX-XXXX-XXXX-YYYYMMDD` shape is still accepted when
its date part parses to a future date: `"A-B-C-99991231"` is accepted on
2026-10-12 although it is not of the claimed shape, refuting the
"only if" direction of the claim. -/
theorem c2_shape_not_required :
    validate_license ⟨2026, 10, 12, 1⟩ "A-B-C-99991231".toList = true ∧
    specLicenseShape "A-B-C-99991231".toList = false := by
  refine ⟨by decide, by decide⟩

/-! ## Claim C5: cookie policy -/

/-- C5 counterexample: with a `COOKIEFILE:` cookie string naming a path that
does not exist (`os.path.exists` is `false` everywhere here), the child
command line still receives `--cookies /tmp/missing.txt` — the existence
check guards only the unused `ydl_opts` dictionary — and no warning is
logged (the dictionary branch skips a missing file silently). -/
theorem c5_cookie_policy_counterexample :
    cookieCmdArgs "COOKIEFILE:/tmp/missing.txt".toList =
      ["--cookies".toList, "/tmp/missing.txt".toList] ∧
    ydlCookie (fun _ => false) "COOKIEFILE:/tmp/missing.txt".toList =
      (none, [], []) := by
  refine ⟨by decide, by decide⟩

/-- C5 (amended): if the cookie string begins case-insensitively with
`COOKIEFILE:`, the remainder (stripped) goes into the internal `ydl_opts`
dictionary as a cookie jar only if the path exists — a missing path is
skipped silently, with no warning and no error — while the child command
line receives `--cookies <path>` unconditionally; a non-empty string without
the prefix is recorded as a `Cookie` header only in the internal dictionary,
and the child command line gets no cookie argument at all. -/
theorem c5_cookie_policy (fsE : List Char → Bool) (ct : List Char) :
    (pyStartsWith "COOKIEFILE:".toList (pyUpper ct) = true →
      cookieCmdArgs ct = ["--cookies".toList, pyStrip (pyAfterFirst ':' ct)] ∧
      (fsE (pyStrip (pyAfterFirst ':' ct)) = true →
        ydlCookie fsE ct = (some (pyStrip (pyAfterFirst ':' ct)), [],
          ["🍪 Using cookie file: ".toList ++ pyStrip (pyAfterFirst ':' ct)])) ∧
      (fsE (pyStrip (pyAfterFirst ':' ct)) = false →
        ydlCookie fsE ct = (none, [], []))) ∧
    (pyStartsWith "COOKIEFILE:".toList (pyUpper ct) = false → ct ≠ [] →
      ydlCookie fsE ct = (none, [("Cookie".toList, ct)], []) ∧
      cookieCmdArgs ct = []) := by
  constructor
  · intro hpfx
    have hne : ct ≠ [] := by
      intro h
      subst h
      exact absurd hpfx (by decide)
    refine ⟨?_, ?_, ?_⟩
    · unfold cookieCmdArgs
      rw [hpfx]
      simp
    · intro hex
      unfold ydlCookie
      rw [hpfx]
      simp [hne, hex]
    · intro hex
      unfold ydlCookie
      rw [hpfx]
      simp [hne, hex]
  · intro hpfx hne
    constructor
    · unfold ydlCookie
      rw [hpfx]
      simp [hne]
    · unfold cookieCmdArgs
      rw [hpfx]
      simp

/-- Witness for `c5_cookie_policy` at a concrete cookie string and a
filesystem where the path exists. -/
theorem c5_cookie_policy_witness :
    ydlCookie (fun _ => true) "COOKIEFILE:/tmp/c.txt".toList =
      (some "/tmp/c.txt".toList, [],
        ["🍪 Using cookie file: /tmp/c.txt".toList]) ∧
    cookieCmdArgs "COOKIEFILE:/tmp/c.txt".toList =
      ["--cookies".toList, "/tmp/c.txt".toList] := by
  have h := c5_cookie_policy (fun _ => true) "COOKIEFILE:/tmp/c.txt".toList
  refine ⟨?_, ?_⟩
  · have := (h.1 (by decide)).2.1 (by decide)
    simpa using this
  · have := (h.1 (by decide)).1
    simpa using this

/-! ## Claim C4: percent formula (counterexample) -/

/-- C4 counterexample: after two items of a three-item batch have completed,
the formula of the specification `round(100 * (succeeded + failed) / total)`
yields `round(200/3) = 67`, but the
`int(((ok + fail) / max(1, total)) * 100)` truncates the float `66.66...`
and emits 66. -/
theorem c4_percent_truncates_not_rounds :
    (workerRun [true, true, true] (fun _ => false)).trace =
      [⟨1, 0, 33⟩, ⟨2, 0, 66⟩, ⟨3, 0, 100⟩] ∧
    specRoundPct 2 3 = 67 ∧ (66 : Nat) ≠ 67 := by
  refine ⟨by decide, by decide, by decide⟩

/-! ## Claims C3 and C4: the batch loop -/

/-- Combined invariant of `workerLoop`: counters grow by exactly one per
emitted event, the loop processes at most the remaining items, it processes
all of them unless it reports cancellation, a reported cancellation means the
stop flag was observed set at the top of the loop for the first unprocessed
item, and every emitted event carries counts bounded by the items available
and the percentage computed by `pyPct` from its own counts. -/
theorem workerLoop_spec (stop : Nat → Bool) (total : Nat) (l : List Bool) :
    ∀ (idx ok fl : Nat),
      ((workerLoop total stop l idx ok fl).ok + (workerLoop total stop l idx ok fl).fl =
        ok + fl + (workerLoop total stop l idx ok fl).trace.length) ∧
      (workerLoop total stop l idx ok fl).trace.length ≤ l.length ∧
      ((workerLoop total stop l idx ok fl).cancelled = false →
        (workerLoop total stop l idx ok fl).trace.length = l.length) ∧
      ((workerLoop total stop l idx ok fl).cancelled = true →
        (workerLoop total stop l idx ok fl).trace.length < l.length ∧
        stop (idx + (workerLoop total stop l idx ok fl).trace.length) = true) ∧
      (∀ e ∈ (workerLoop total stop l idx ok fl).trace,
        e.ok + e.fl ≤ ok + fl + l.length ∧ e.pct = pyPct (e.ok + e.fl) total) := by
  induction l with
  | nil =>
    intro idx ok fl
    simp [workerLoop]
  | cons o rest ih =>
    intro idx ok fl
    by_cases h : stop idx = true
    · simp [workerLoop, h]
    · have hns : stop idx = false := by simpa using h
      obtain ⟨ih1, ih2, ih3, ih4, ih5⟩ :=
        ih (idx + 1) (if o then ok + 1 else ok) (if o then fl else fl + 1)
      have hsum : (if o then ok + 1 else ok) + (if o then fl else fl + 1) =
          ok + fl + 1 := by
        cases o <;> simp <;> omega
      rw [hsum] at ih1 ih5
      simp only [workerLoop, hns, Bool.false_eq_true, if_false, List.length_cons]
      refine ⟨?_, ?_, ?_, ?_, ?_⟩
      · simpa using by omega
      · simpa using by omega
      · intro hc
        have := ih3 hc
        simpa using by omega
      · intro hc
        obtain ⟨hlt, hstop⟩ := ih4 hc
        refine ⟨by simpa using by omega, ?_⟩
        have harith : idx + (List.length
            (workerLoop total stop rest (idx + 1) (if o then ok + 1 else ok)
              (if o then fl else fl + 1)).trace + 1) =
            idx + 1 + (workerLoop total stop rest (idx + 1) (if o then ok + 1 else ok)
              (if o then fl else fl + 1)).trace.length := by omega
        simpa [harith] using hstop
      · intro e he
        simp only [List.mem_cons] at he
        rcases he with he | he
        · subst he
          refine ⟨by simp; omega, ?_⟩
          simp [hsum]
        · obtain ⟨hb, hp⟩ := ih5 e he
          exact ⟨by omega, hp⟩

/-- C3: for every batch, `succeeded + failed ≤ total` holds at every emitted
event and at the end; when the terminal `done` is emitted without the loop
having observed the stop flag, `succeeded + failed = total`; when it was
observed, `succeeded + failed < total` and the flag was seen set at the top
of the loop for item `succeeded + failed + 1`, so no later item was
started. -/
theorem c3_batch_counts_invariant (outcomes : List Bool) (stop : Nat → Bool) :
    (∀ e ∈ (workerRun outcomes stop).trace, e.ok + e.fl ≤ outcomes.length) ∧
    (workerRun outcomes stop).ok + (workerRun outcomes stop).fl ≤ outcomes.length ∧
    ((workerRun outcomes stop).cancelled = false →
      (workerRun outcomes stop).ok + (workerRun outcomes stop).fl = outcomes.length) ∧
    ((workerRun outcomes stop).cancelled = true →
      (workerRun outcomes stop).ok + (workerRun outcomes stop).fl < outcomes.length ∧
      stop ((workerRun outcomes stop).ok + (workerRun outcomes stop).fl + 1) = true) := by
  obtain ⟨h1, h2, h3, h4, h5⟩ := workerLoop_spec stop outcomes.length outcomes 1 0 0
  have hrun : workerRun outcomes stop = workerLoop outcomes.length stop outcomes 1 0 0 := rfl
  rw [hrun]
  refine ⟨fun e he => (h5 e he).1.trans (by omega), by omega, fun hc => ?_, fun hc => ?_⟩
  · have := h3 hc
    omega
  · obtain ⟨hlt, hstop⟩ := h4 hc
    refine ⟨by omega, ?_⟩
    have harith : (workerLoop outcomes.length stop outcomes 1 0 0).ok +
        (workerLoop outcomes.length stop outcomes 1 0 0).fl + 1 =
        1 + (workerLoop outcomes.length stop outcomes 1 0 0).trace.length := by omega
    rw [harith]
    exact hstop

/-- Witness for `c3_batch_counts_invariant`: a five-item batch whose stop
flag becomes set when the loop reaches item 4 processes exactly three items
and reports cancellation with the flag observed for item 4. -/
theorem c3_batch_counts_invariant_witness :
    (workerRun [true, false, true, true, true] (fun i => decide (4 ≤ i))).cancelled =
      true ∧
    ((workerRun [true, false, true, true, true] (fun i => decide (4 ≤ i))).ok +
        (workerRun [true, false, true, true, true] (fun i => decide (4 ≤ i))).fl <
        [true, false, true, true, true].length ∧
      (fun i => decide (4 ≤ i))
        ((workerRun [true, false, true, true, true] (fun i => decide (4 ≤ i))).ok +
          (workerRun [true, false, true, true, true] (fun i => decide (4 ≤ i))).fl + 1) =
        true) ∧
    (⟨2, 1, 60⟩ : TraceEntry) ∈
      (workerRun [true, false, true, true, true] (fun i => decide (4 ≤ i))).trace ∧
    (⟨2, 1, 60⟩ : TraceEntry).ok + (⟨2, 1, 60⟩ : TraceEntry).fl ≤
      [true, false, true, true, true].length :=
  ⟨by decide,
   (c3_batch_counts_invariant [true, false, true, true, true]
      (fun i => decide (4 ≤ i))).2.2.2 (by decide),
   by decide,
   (c3_batch_counts_invariant [true, false, true, true, true]
      (fun i => decide (4 ≤ i))).1 ⟨2, 1, 60⟩ (by decide)⟩

/-- C4 (amended): each per-item emission carries the percentage
`int(((succeeded + failed) / max(1, total)) * 100)` computed in IEEE-754
double arithmetic with truncation toward zero — not the rounded value named
by the claim (see `c4_percent_truncates_not_rounds`). -/
theorem c4_percent_formula (outcomes : List Bool) (stop : Nat → Bool) :
    ∀ e ∈ (workerRun outcomes stop).trace,
      e.pct = pyPct (e.ok + e.fl) outcomes.length := by
  intro e he
  exact ((workerLoop_spec stop outcomes.length outcomes 1 0 0).2.2.2.2 e he).2

/-- Witness for `c4_percent_formula`: the second event of a three-item batch
carries `pyPct 2 3 = 66`. -/
theorem c4_percent_formula_witness :
    (⟨2, 0, 66⟩ : TraceEntry) ∈ (workerRun [true, true, true] (fun _ => false)).trace ∧
    (⟨2, 0, 66⟩ : TraceEntry).pct =
      pyPct ((⟨2, 0, 66⟩ : TraceEntry).ok + (⟨2, 0, 66⟩ : TraceEntry).fl)
        [true, true, true].length :=
  ⟨by decide,
   c4_percent_formula [true, true, true] (fun _ => false) ⟨2, 0, 66⟩ (by decide)⟩

/-! ## License key machinery: string and date lemmas -/

theorem dropWhile_eq_self_of (p : Char → Bool) (l : List Char)
    (h : ∀ c ∈ l, p c = false) : l.dropWhile p = l := by
  cases l with
  | nil => rfl
  | cons c rest => simp [List.dropWhile_cons, h c (by simp)]

theorem pyStrip_eq_self (l : List Char) (h : ∀ c ∈ l, pyIsSpace c = false) :
    pyStrip l = l := by
  unfold pyStrip
  have h1 : l.dropWhile pyIsSpace = l := dropWhile_eq_self_of _ _ h
  have h2 : l.reverse.dropWhile pyIsSpace = l.reverse :=
    dropWhile_eq_self_of _ _ (fun c hc => h c (List.mem_reverse.mp hc))
  rw [h1, h2, List.reverse_reverse]

theorem pySplitChar_of_not_mem (sep : Char) (l : List Char)
    (h : ∀ c ∈ l, c ≠ sep) : pySplitChar sep l = [l] := by
  induction l with
  | nil => rfl
  | cons c rest ih =>
    have hc : c ≠ sep := h c (by simp)
    have h' := ih (fun e he => h e (by simp [he]))
    simp [pySplitChar, hc, h']

theorem pySplitChar_append (sep : Char) (a r : List Char)
    (h : ∀ c ∈ a, c ≠ sep) :
    pySplitChar sep (a ++ sep :: r) = a :: pySplitChar sep r := by
  induction a with
  | nil => simp [pySplitChar]
  | cons c a' ih =>
    have hc : c ≠ sep := h c (by simp)
    have h' := ih (fun e he => h e (by simp [he]))
    simp [pySplitChar, hc, h']

theorem intercalate_four (a b c d : List Char) :
    List.intercalate ['-'] [a, b, c, d] = a ++ '-' :: (b ++ '-' :: (c ++ '-' :: d)) := by
  simp [List.intercalate, List.intersperse]

theorem digitChar_isDigit (k : Nat) (h : k ≤ 9) : (digitChar k).isDigit = true := by
  interval_cases k <;> decide

theorem digVal_digitChar (k : Nat) (h : k ≤ 9) : digVal (digitChar k) = k := by
  interval_cases k <;> decide

theorem digitChar_ne_dash (k : Nat) (h : k ≤ 9) : digitChar k ≠ '-' := by
  interval_cases k <;> decide

theorem digitChar_not_space (k : Nat) (h : k ≤ 9) :
    pyIsSpace (digitChar k) = false := by
  interval_cases k <;> decide

theorem renderYmd_ne_dash (y m d : Nat) : ∀ c ∈ renderYmd y m d, c ≠ '-' := by
  intro c hc
  unfold renderYmd at hc
  simp only [List.mem_cons, List.not_mem_nil, or_false] at hc
  rcases hc with rfl | rfl | rfl | rfl | rfl | rfl | rfl | rfl <;>
    exact digitChar_ne_dash _ (by omega)

theorem renderYmd_not_space (y m d : Nat) :
    ∀ c ∈ renderYmd y m d, pyIsSpace c = false := by
  intro c hc
  unfold renderYmd at hc
  simp only [List.mem_cons, List.not_mem_nil, or_false] at hc
  rcases hc with rfl | rfl | rfl | rfl | rfl | rfl | rfl | rfl <;>
    exact digitChar_not_space _ (by omega)

theorem licChar_ne_dash (c : Char) (h : licChar c) : c ≠ '-' := by
  intro e
  subst e
  exact absurd h (by decide)

theorem licChar_not_space (c : Char) (h : licChar c) : pyIsSpace c = false := by
  have h48 : 48 ≤ c.toNat := by
    rcases h with ⟨h1, _⟩ | ⟨h1, _⟩ <;> omega
  have hne : ∀ (d : Char), d.toNat < 48 → ¬(c = d) := by
    intro d hd e
    subst e
    omega
  simp [pyIsSpace, hne ' ' (by decide), hne '\t' (by decide), hne '\n' (by decide),
    hne '\r' (by decide), hne (Char.ofNat 11) (by decide), hne (Char.ofNat 12) (by decide)]

theorem daysInMonth_pos (y m : Nat) : 1 ≤ daysInMonth y m := by
  unfold daysInMonth
  split
  · split <;> omega
  · split <;> omega

theorem daysInMonth_le (y m : Nat) : daysInMonth y m ≤ 31 := by
  unfold daysInMonth
  split
  · split <;> omega
  · split <;> omega

theorem monthDay_render (m d : Nat) (hm1 : 1 ≤ m) (hm2 : m ≤ 12)
    (hd1 : 1 ≤ d) (hd2 : d ≤ 31) :
    monthDayMatch [digitChar (m / 10 % 10), digitChar (m % 10),
      digitChar (d / 10 % 10), digitChar (d % 10)] = some (m, d, []) := by
  interval_cases m <;> interval_cases d <;> decide

theorem strptime_render (y m d : Nat) (h : validDate y m d) :
    pyStrptimeYmd (renderYmd y m d) = some (y, m, d) := by
  obtain ⟨hy1, hy2, hm1, hm2, hd1, hd2⟩ := h
  have hd31 : d ≤ 31 := hd2.trans (daysInMonth_le y m)
  have e1 : (digitChar (y / 1000 % 10)).isDigit = true := digitChar_isDigit _ (by omega)
  have e2 : (digitChar (y / 100 % 10)).isDigit = true := digitChar_isDigit _ (by omega)
  have e3 : (digitChar (y / 10 % 10)).isDigit = true := digitChar_isDigit _ (by omega)
  have e4 : (digitChar (y % 10)).isDigit = true := digitChar_isDigit _ (by omega)
  have v1 : digVal (digitChar (y / 1000 % 10)) = y / 1000 % 10 :=
    digVal_digitChar _ (by omega)
  have v2 : digVal (digitChar (y / 100 % 10)) = y / 100 % 10 :=
    digVal_digitChar _ (by omega)
  have v3 : digVal (digitChar (y / 10 % 10)) = y / 10 % 10 :=
    digVal_digitChar _ (by omega)
  have v4 : digVal (digitChar (y % 10)) = y % 10 := digVal_digitChar _ (by omega)
  have hE : ((y / 1000 % 10 * 10 + y / 100 % 10) * 10 + y / 10 % 10) * 10 + y % 10 = y := by
    omega
  have hmd := monthDay_render m d hm1 hm2 hd1 hd31
  simp only [renderYmd, pyStrptimeYmd]
  rw [hmd]
  simp only [e1, e2, e3, e4, Bool.and_self, if_true, v1, v2, v3, v4, hE]
  rw [if_pos ⟨hy1, hd2⟩]

/-- Shared core of the license claims: a key assembled from three
dash-free, whitespace-free groups and the 8-digit rendering of a valid date
is judged purely by the date comparison. -/
theorem validate_render_key (now : PyDateTime) (a b c : List Char) (y m d : Nat)
    (ha : ∀ ch ∈ a, ch ≠ '-' ∧ pyIsSpace ch = false)
    (hb : ∀ ch ∈ b, ch ≠ '-' ∧ pyIsSpace ch = false)
    (hc : ∀ ch ∈ c, ch ≠ '-' ∧ pyIsSpace ch = false)
    (hv : validDate y m d) :
    validate_license now (a ++ '-' :: (b ++ '-' :: (c ++ '-' :: renderYmd y m d))) =
      !dtGtMidnight now y m d := by
  have hstrip : pyStrip (a ++ '-' :: (b ++ '-' :: (c ++ '-' :: renderYmd y m d))) =
      a ++ '-' :: (b ++ '-' :: (c ++ '-' :: renderYmd y m d)) := by
    apply pyStrip_eq_self
    intro ch hch
    simp only [List.mem_append, List.mem_cons] at hch
    rcases hch with h | h | h | h | h | h | h
    · exact (ha ch h).2
    · subst h; decide
    · exact (hb ch h).2
    · subst h; decide
    · exact (hc ch h).2
    · subst h; decide
    · exact renderYmd_not_space y m d ch h
  have hsplit : pySplitChar '-' (a ++ '-' :: (b ++ '-' :: (c ++ '-' :: renderYmd y m d))) =
      [a, b, c, renderYmd y m d] := by
    rw [pySplitChar_append '-' a _ (fun ch h => (ha ch h).1),
        pySplitChar_append '-' b _ (fun ch h => (hb ch h).1),
        pySplitChar_append '-' c _ (fun ch h => (hc ch h).1),
        pySplitChar_of_not_mem '-' _ (renderYmd_ne_dash y m d)]
  unfold validate_license
  rw [hstrip, hsplit]
  simp only [List.getD, List.get?, Option.getD_some, List.length_cons, List.length_nil]
  rw [strptime_render y m d hv]
  rfl

/-! ## Claim C2 (amended) and C10 -/

/-- The validator, characterised over arbitrary keys: a key is accepted iff
its trimmed text splits on `'-'` into exactly four parts and the fourth
parses via `strptime("%Y%m%d")` to a date whose midnight is not strictly
before the clock. -/
theorem validate_license_iff (now : PyDateTime) (key : List Char) :
    validate_license now key = true ↔
      ((pySplitChar '-' (pyStrip key)).length = 4 ∧
        ∃ y m d, pyStrptimeYmd ((pySplitChar '-' (pyStrip key)).getD 3 []) =
          some (y, m, d) ∧ dtGtMidnight now y m d = false) := by
  simp only [validate_license]
  by_cases hlen : (pySplitChar '-' (pyStrip key)).length = 4
  · rw [if_pos hlen]
    cases hp : pyStrptimeYmd ((pySplitChar '-' (pyStrip key)).getD 3 []) with
    | none => simp [hlen]
    | some t =>
      obtain ⟨y, m, d⟩ := t
      simp only [hlen, true_and]
      constructor
      · intro h
        exact ⟨y, m, d, rfl, by simpa using h⟩
      · rintro ⟨y', m', d', heq, hf⟩
        obtain ⟨rfl, rfl, rfl⟩ : y = y' ∧ m = m' ∧ d = d' := by simpa using heq
        simpa using hf
  · rw [if_neg hlen]
    simp [hlen]

/-- C2 (amended): for every key, the validator accepts iff the trimmed key
splits on `'-'` into exactly four parts and the fourth parses via
`strptime("%Y%m%d")` as a calendar date whose midnight is not strictly
before the clock at check time — so malformed keys (wrong part count,
unparseable date) are rejected, while a parseable non-8-digit date part
such as `"999911"` is accepted; and the three leading groups are never
inspected: for any dash-free, whitespace-free groups, whatever their length
or content, a key assembled with the rendering of a valid date is judged
purely by the date comparison. -/
theorem c2_license_accepts_any_groups (now : PyDateTime) (key a b c : List Char)
    (y m d : Nat)
    (ha : ∀ ch ∈ a, ch ≠ '-' ∧ pyIsSpace ch = false)
    (hb : ∀ ch ∈ b, ch ≠ '-' ∧ pyIsSpace ch = false)
    (hc : ∀ ch ∈ c, ch ≠ '-' ∧ pyIsSpace ch = false)
    (hv : validDate y m d) :
    (validate_license now key = true ↔
      ((pySplitChar '-' (pyStrip key)).length = 4 ∧
        ∃ y' m' d', pyStrptimeYmd ((pySplitChar '-' (pyStrip key)).getD 3 []) =
          some (y', m', d') ∧ dtGtMidnight now y' m' d' = false)) ∧
    (validate_license now (a ++ '-' :: (b ++ '-' :: (c ++ '-' :: renderYmd y m d))) =
      true ↔ dtGtMidnight now y m d = false) := by
  constructor
  · exact validate_license_iff now key
  · rw [validate_render_key now a b c y m d ha hb hc hv]
    cases dtGtMidnight now y m d <;> simp

/-- Witness for `c2_license_accepts_any_groups` on 2026-10-12:
`A-B-C-999911` (four parts, 6-digit date part parsed 9999-01-01) is
accepted; `A-B-C-banana` (unparseable date) and `AB12-CD34-EF56` (three
parts) are rejected; the assembled keys `AB12-CD34-EF56-99991231` and
`AB12-CD34-EF56-20200101` are accepted and rejected respectively. -/
theorem c2_license_accepts_any_groups_witness :
    validate_license ⟨2026, 10, 12, 1⟩ "A-B-C-999911".toList = true ∧
    validate_license ⟨2026, 10, 12, 1⟩ "A-B-C-banana".toList = false ∧
    validate_license ⟨2026, 10, 12, 1⟩ "AB12-CD34-EF56".toList = false ∧
    validate_license ⟨2026, 10, 12, 1⟩
      ("AB12".toList ++ '-' :: ("CD34".toList ++ '-' :: ("EF56".toList ++ '-' ::
        renderYmd 9999 12 31))) = true ∧
    validate_license ⟨2026, 10, 12, 1⟩
      ("AB12".toList ++ '-' :: ("CD34".toList ++ '-' :: ("EF56".toList ++ '-' ::
        renderYmd 2020 1 1))) = false := by
  have h1 := c2_license_accepts_any_groups ⟨2026, 10, 12, 1⟩ "A-B-C-999911".toList
    "AB12".toList "CD34".toList "EF56".toList 9999 12 31 (by decide) (by decide)
    (by decide) (by decide)
  have h2 := c2_license_accepts_any_groups ⟨2026, 10, 12, 1⟩ "A-B-C-banana".toList
    "AB12".toList "CD34".toList "EF56".toList 2020 1 1 (by decide) (by decide)
    (by decide) (by decide)
  have h3 := c2_license_accepts_any_groups ⟨2026, 10, 12, 1⟩ "AB12-CD34-EF56".toList
    "AB12".toList "CD34".toList "EF56".toList 2020 1 1 (by decide) (by decide)
    (by decide) (by decide)
  refine ⟨?_, ?_, ?_, ?_, ?_⟩
  · exact h1.1.mpr ⟨by decide, 9999, 1, 1, by decide, by decide⟩
  · refine Bool.eq_false_iff.mpr (fun hv => ?_)
    obtain ⟨-, y', m', d', hp, -⟩ := h2.1.mp hv
    have hn : pyStrptimeYmd
        ((pySplitChar '-' (pyStrip "A-B-C-banana".toList)).getD 3 []) = none := by
      decide
    rw [hn] at hp
    exact Option.noConfusion hp
  · refine Bool.eq_false_iff.mpr (fun hv => ?_)
    exact absurd (h3.1.mp hv).1 (by decide)
  · exact h1.2.mpr (by decide)
  · refine Bool.eq_false_iff.mpr (fun hv => ?_)
    exact absurd (h2.2.mp hv) (by decide)

theorem nextDay_spec (t : Nat × Nat × Nat)
    (h : 1 ≤ t.1 ∧ 1 ≤ t.2.1 ∧ t.2.1 ≤ 12 ∧ 1 ≤ t.2.2 ∧ t.2.2 ≤ daysInMonth t.1 t.2.1) :
    (1 ≤ (nextDay t).1 ∧ 1 ≤ (nextDay t).2.1 ∧ (nextDay t).2.1 ≤ 12 ∧
      1 ≤ (nextDay t).2.2 ∧
      (nextDay t).2.2 ≤ daysInMonth (nextDay t).1 (nextDay t).2.1) ∧
    dateNum t.1 t.2.1 t.2.2 < dateNum (nextDay t).1 (nextDay t).2.1 (nextDay t).2.2 := by
  obtain ⟨y, m, d⟩ := t
  have hy : 1 ≤ y := h.1
  have hm1 : 1 ≤ m := h.2.1
  have hm2 : m ≤ 12 := h.2.2.1
  have hd1 : 1 ≤ d := h.2.2.2.1
  have hd2 : d ≤ daysInMonth y m := h.2.2.2.2
  have hle := daysInMonth_le y m
  by_cases h1 : d < daysInMonth y m
  · have hn : nextDay (y, m, d) = (y, m, d + 1) := by simp [nextDay, h1]
    rw [hn]
    refine ⟨⟨hy, hm1, hm2, ?_, ?_⟩, ?_⟩
    · show 1 ≤ d + 1
      omega
    · show d + 1 ≤ daysInMonth y m
      omega
    · show dateNum y m d < dateNum y m (d + 1)
      unfold dateNum
      omega
  · by_cases h2 : m < 12
    · have hn : nextDay (y, m, d) = (y, m + 1, 1) := by simp [nextDay, h1, h2]
      rw [hn]
      refine ⟨⟨hy, ?_, ?_, ?_, ?_⟩, ?_⟩
      · show 1 ≤ m + 1
        omega
      · show m + 1 ≤ 12
        omega
      · show (1 : Nat) ≤ 1
        omega
      · show 1 ≤ daysInMonth y (m + 1)
        exact daysInMonth_pos y (m + 1)
      · show dateNum y m d < dateNum y (m + 1) 1
        unfold dateNum
        omega
    · have hn : nextDay (y, m, d) = (y + 1, 1, 1) := by simp [nextDay, h1, h2]
      rw [hn]
      refine ⟨⟨?_, ?_, ?_, ?_, ?_⟩, ?_⟩
      · show 1 ≤ y + 1
        omega
      · show (1 : Nat) ≤ 1
        omega
      · show (1 : Nat) ≤ 12
        omega
      · show (1 : Nat) ≤ 1
        omega
      · show 1 ≤ daysInMonth (y + 1) 1
        exact daysInMonth_pos (y + 1) 1
      · show dateNum y m d < dateNum (y + 1) 1 1
        unfold dateNum
        omega

theorem addDays_spec : ∀ (n : Nat) (t : Nat × Nat × Nat),
    (1 ≤ t.1 ∧ 1 ≤ t.2.1 ∧ t.2.1 ≤ 12 ∧ 1 ≤ t.2.2 ∧ t.2.2 ≤ daysInMonth t.1 t.2.1) →
    (1 ≤ (addDays n t).1 ∧ 1 ≤ (addDays n t).2.1 ∧ (addDays n t).2.1 ≤ 12 ∧
      1 ≤ (addDays n t).2.2 ∧
      (addDays n t).2.2 ≤ daysInMonth (addDays n t).1 (addDays n t).2.1) ∧
    dateNum t.1 t.2.1 t.2.2 + n ≤
      dateNum (addDays n t).1 (addDays n t).2.1 (addDays n t).2.2
  | 0, t, h => ⟨h, by simp [addDays]⟩
  | n + 1, t, h => by
    obtain ⟨ihv, ihlt⟩ := addDays_spec n t h
    obtain ⟨nv, nlt⟩ := nextDay_spec (addDays n t) ihv
    exact ⟨nv, by simp only [addDays]; omega⟩

/-- C10: a key produced by `generate_license` with expiry `d ≥ 1` days from
now — for any random draw of the three groups and any representable clock
time whose shifted date still fits in `datetime`'s year range — is accepted
by `validate_license` at that same clock time. -/
theorem c10_generated_key_validates (now : PyDateTime) (days : Nat)
    (p1 p2 p3 : List Char)
    (hnow : validDT now) (hdays : 1 ≤ days)
    (hrep : (addDays days (now.year, now.month, now.day)).1 ≤ 9999)
    (h1 : licGroup p1) (h2 : licGroup p2) (h3 : licGroup p3) :
    validate_license now (generate_license now days p1 p2 p3) = true := by
  obtain ⟨hy1, hy2, hm1, hm2, hd1, hd2⟩ := hnow
  obtain ⟨av, alt⟩ := addDays_spec days (now.year, now.month, now.day)
    ⟨hy1, hm1, hm2, hd1, hd2⟩
  obtain ⟨q1, q2, q3, q4, q5⟩ := av
  have alt' : dateNum now.year now.month now.day + days ≤
      dateNum (addDays days (now.year, now.month, now.day)).1
        (addDays days (now.year, now.month, now.day)).2.1
        (addDays days (now.year, now.month, now.day)).2.2 := alt
  have hvt : validDate (addDays days (now.year, now.month, now.day)).1
      (addDays days (now.year, now.month, now.day)).2.1
      (addDays days (now.year, now.month, now.day)).2.2 :=
    ⟨q1, hrep, q2, q3, q4, q5⟩
  have grp : ∀ (p : List Char), licGroup p → ∀ ch ∈ p, ch ≠ '-' ∧ pyIsSpace ch = false :=
    fun p hp ch hch => ⟨licChar_ne_dash ch (hp.2 ch hch), licChar_not_space ch (hp.2 ch hch)⟩
  unfold generate_license
  rw [intercalate_four]
  rw [validate_render_key now p1 p2 p3 _ _ _ (grp p1 h1) (grp p2 h2) (grp p3 h3) hvt]
  have hlt : dateNum now.year now.month now.day <
      dateNum (addDays days (now.year, now.month, now.day)).1
        (addDays days (now.year, now.month, now.day)).2.1
        (addDays days (now.year, now.month, now.day)).2.2 := by omega
  have hng : ¬(dateNum now.year now.month now.day >
      dateNum (addDays days (now.year, now.month, now.day)).1
        (addDays days (now.year, now.month, now.day)).2.1
        (addDays days (now.year, now.month, now.day)).2.2) := by omega
  have hne : ¬(dateNum now.year now.month now.day =
      dateNum (addDays days (now.year, now.month, now.day)).1
        (addDays days (now.year, now.month, now.day)).2.1
        (addDays days (now.year, now.month, now.day)).2.2) := by omega
  simp [dtGtMidnight, hng, hne]

/-- Witness for `c10_generated_key_validates`: a key generated on 2026-10-12
with 30-day expiry (groups `AB12`, `CD34`, `EF56`) validates at the same
instant. -/
theorem c10_generated_key_validates_witness :
    validate_license ⟨2026, 10, 12, 1⟩
      (generate_license ⟨2026, 10, 12, 1⟩ 30 "AB12".toList "CD34".toList
        "EF56".toList) = true :=
  c10_generated_key_validates ⟨2026, 10, 12, 1⟩ 30 "AB12".toList "CD34".toList
    "EF56".toList (by decide) (by decide) (by decide) (by decide) (by decide) (by decide)

/-! ## Claim C9: folder-name safety -/

theorem subRun_chars (l : List Char) :
    ∀ (b : Bool), ∀ c ∈ subRun l b, allowedChar c = true := by
  induction l with
  | nil =>
    intro b c hc
    simp [subRun] at hc
  | cons x rest ih =>
    intro b c hc
    by_cases hx : allowedChar x = true
    · rw [subRun, if_pos hx] at hc
      rcases List.mem_cons.mp hc with rfl | hc
      · exact hx
      · exact ih false c hc
    · have hx' : ¬(allowedChar x = true) := hx
      cases b with
      | true =>
        rw [subRun, if_neg hx', if_pos rfl] at hc
        exact ih true c hc
      | false =>
        rw [subRun, if_neg hx'] at hc
        simp only [Bool.false_eq_true, if_false] at hc
        rcases List.mem_cons.mp hc with rfl | hc
        · decide
        · exact ih true c hc

theorem mem_of_mem_pyLstripChar {ch c : Char} {l : List Char}
    (h : c ∈ pyLstripChar ch l) : c ∈ l :=
  (List.dropWhile_sublist _).mem h

theorem mem_of_mem_pyRstripChar {ch c : Char} {l : List Char}
    (h : c ∈ pyRstripChar ch l) : c ∈ l := by
  unfold pyRstripChar at h
  have := (List.dropWhile_sublist _).mem (List.mem_reverse.mp h)
  exact List.mem_reverse.mp this

theorem slugify_spec (s : List Char) :
    slugify s ≠ [] ∧ ∀ c ∈ slugify s, allowedChar c = true := by
  simp only [slugify]
  by_cases h : pyLstripChar '_' (pyRstripChar '_' (subRun (pyStrip s) false)) = []
  · rw [if_pos h]
    exact ⟨by decide, by decide⟩
  · rw [if_neg h]
    refine ⟨h, ?_⟩
    intro c hc
    exact subRun_chars (pyStrip s) false c
      (mem_of_mem_pyRstripChar (mem_of_mem_pyLstripChar hc))

/-- C9: for every platform string and every URL string the derived folder
name is non-empty and uses only characters from `[A-Za-z0-9._-]`; and
whenever the substituted text is empty after trimming the `'_'` separators,
`slugify` falls back to the literal `"download"`. -/
theorem c9_folder_name_safe (platform url s : List Char) :
    (derive_folder_name platform url ≠ [] ∧
      ∀ c ∈ derive_folder_name platform url, allowedChar c = true) ∧
    (pyLstripChar '_' (pyRstripChar '_' (subRun (pyStrip s) false)) = [] →
      slugify s = "download".toList) := by
  constructor
  · simp only [derive_folder_name]
    exact slugify_spec _
  · intro h
    simp only [slugify]
    rw [if_pos h]

/-- Witness for `c9_folder_name_safe`: the text `"!!!"` trims to nothing and
falls back to `"download"`. -/
theorem c9_folder_name_safe_witness :
    pyLstripChar '_' (pyRstripChar '_' (subRun (pyStrip "!!!".toList) false)) = [] ∧
    slugify "!!!".toList = "download".toList :=
  ⟨by decide,
   (c9_folder_name_safe "X".toList "https://x".toList "!!!".toList).2 (by decide)⟩

/-! ## Claim C7: the TikTok scenario -/

/-- C7 counterexample: the claim names the destination
`<base>/TikTok/tiktok.com_123/`, but `derive_folder_name` keeps the full
host including the `www.` prefix, so the actual directory is
`<base>/TikTok/www.tiktok.com_123`. -/
theorem c7_folder_name_differs :
    derive_folder_name "TikTok".toList
      "https://www.tiktok.com/@foo/video/123".toList = "www.tiktok.com_123".toList ∧
    workerOutdir "/base".toList "TikTok".toList
        (derive_folder_name "TikTok".toList
          "https://www.tiktok.com/@foo/video/123".toList) ≠
      "/base/TikTok/tiktok.com_123".toList := by
  refine ⟨by decide, by decide⟩

/-- C7 (amended): for the single input
`https://www.tiktok.com/@foo/video/123` with platform Auto Detect, the
platform is classified TikTok, the format policy is the single pre-merged
`best[ext=mp4][height<=1080]` stream with no merge container, and the
destination directory is `<base>/TikTok/www.tiktok.com_123` (full host, with
the `www.` prefix). -/
theorem c7_tiktok_scenario (base : List Char) (h1 : base ≠ [])
    (h2 : base.getLastD ' ' ≠ '/') :
    detect_platform "https://www.tiktok.com/@foo/video/123".toList = "TikTok".toList ∧
    workerPlatform
        (mkItem "Auto Detect".toList "URL".toList
          "https://www.tiktok.com/@foo/video/123".toList)
        "https://www.tiktok.com/@foo/video/123".toList = "TikTok".toList ∧
    workerFmt "TikTok".toList = ("best[ext=mp4][height<=1080]".toList, none) ∧
    derive_folder_name "TikTok".toList
      "https://www.tiktok.com/@foo/video/123".toList = "www.tiktok.com_123".toList ∧
    workerOutdir base "TikTok".toList "www.tiktok.com_123".toList =
      base ++ "/TikTok/www.tiktok.com_123".toList := by
  refine ⟨by decide, by decide, by decide, by decide, ?_⟩
  have hb1 : decide (base = []) = false := decide_eq_false h1
  have hb2 : decide (base.getLastD ' ' = '/') = false := decide_eq_false h2
  unfold workerOutdir
  have e1 : (if ("TikTok".toList : List Char) = [] then "Auto".toList
      else "TikTok".toList) = "TikTok".toList := by decide
  rw [e1]
  have e2 : pyPathJoin base "TikTok".toList = base ++ '/' :: "TikTok".toList := by
    unfold pyPathJoin
    rw [if_neg (by decide : ¬(pyStartsWith ['/'] "TikTok".toList = true))]
    have hcond : ¬((decide (base = []) || decide (base.getLastD ' ' = '/')) = true) := by
      simp only [hb1, hb2, Bool.or_self]
      exact Bool.false_ne_true
    rw [if_neg hcond]
  rw [e2]
  have e3 : (base ++ '/' :: "TikTok".toList) ≠ [] := by simp
  have e4 : (base ++ '/' :: "TikTok".toList).getLastD ' ' ≠ '/' := by
    rw [List.getLastD_eq_getLast? ' ' _, List.getLast?_append_of_ne_nil base (by simp)]
    decide
  unfold pyPathJoin
  rw [if_neg (by decide : ¬(pyStartsWith ['/'] "www.tiktok.com_123".toList = true))]
  have hcond2 : ¬((decide ((base ++ '/' :: "TikTok".toList) = []) ||
      decide ((base ++ '/' :: "TikTok".toList).getLastD ' ' = '/')) = true) := by
    simp only [decide_eq_false e3, decide_eq_false e4, Bool.or_self]
    exact Bool.false_ne_true
  rw [if_neg hcond2]
  rw [List.append_assoc]
  exact congrArg (base ++ ·) (by decide)

/-- Witness for `c7_tiktok_scenario` at the base directory `"/base"`. -/
theorem c7_tiktok_scenario_witness :
    detect_platform "https://www.tiktok.com/@foo/video/123".toList = "TikTok".toList ∧
    workerPlatform
        (mkItem "Auto Detect".toList "URL".toList
          "https://www.tiktok.com/@foo/video/123".toList)
        "https://www.tiktok.com/@foo/video/123".toList = "TikTok".toList ∧
    workerFmt "TikTok".toList = ("best[ext=mp4][height<=1080]".toList, none) ∧
    derive_folder_name "TikTok".toList
      "https://www.tiktok.com/@foo/video/123".toList = "www.tiktok.com_123".toList ∧
    workerOutdir "/base".toList "TikTok".toList "www.tiktok.com_123".toList =
      "/base".toList ++ "/TikTok/www.tiktok.com_123".toList :=
  c7_tiktok_scenario "/base".toList (by decide) (by decide)

end MrLY
